import Mathlib

/-!
Verification of the `current` library (src/src/lib.rs): a scoped
dynamic-binding mechanism.  A thread-local slot
`key_current : Option<HashMap<TypeId, uint>>` maps type identities to raw
addresses; `set_current` installs a binding and returns a `CurrentGuard`
that remembers the previous address; dropping the guard restores it;
`current` reads the map and reconstructs a reference from the stored
address; `current_unwrap` panics with a message naming the type when the
binding is absent.

The embedding below models `TypeId` and `uint` addresses as naturals, the
`HashMap` as an association list with unique keys (all operations are the
first-match / replace-in-place semantics a hash map implements), and the
thread-local slot as an `Option` around the map, exactly as in the source.
Panics are modelled by `Option`/`Except` results.
-/

/-- Rust `TypeId`: an opaque comparable identity per static type. -/
abbrev TypeId := Nat

/-- A raw storage address (`uint` obtained from `self as *const T as uint`). -/
abbrev Addr := Nat

/-- The thread's map `HashMap<TypeId, uint>`, modelled as an association
list (one entry per key when built by the operations below). -/
abbrev Registry := List (TypeId × Addr)

/-- `HashMap::find(&id)`: the address stored for `id`, if any. -/
def findPtr (id : TypeId) : Registry → Option Addr
  | [] => none
  | (k, v) :: rest => if k = id then some v else findPtr id rest

/-- `HashMap::entry(id)` followed by `set(ptr)`: replace the value of an
occupied entry in place, or append a vacant one. -/
def entrySet (id : TypeId) (ptr : Addr) : Registry → Registry
  | [] => [(id, ptr)]
  | (k, v) :: rest =>
      if k = id then (k, ptr) :: rest else (k, v) :: entrySet id ptr rest

/-- `HashMap::remove(&id)`: delete the entry for `id`. -/
def removeId (id : TypeId) : Registry → Registry
  | [] => []
  | (k, v) :: rest =>
      if k = id then removeId id rest else (k, v) :: removeId id rest

/-- The thread-local slot `key_current : Option<HashMap<TypeId, uint>>`.
`none` is the state before the map is first created (or after it has been
taken out and not put back). -/
abbrev TLS := Option Registry

/-- The map `set_current` works on: an existing map, or a fresh empty one
(`match current { None => HashMap::new(), Some(current) => current }`). -/
def curOf : TLS → Registry
  | none => []
  | some current => current

/-- The guard returned by `set_current`: the `TypeId` of the bound type
(a type parameter in Rust), the address of the borrowed value `_val`, and
the previous address `old_ptr` captured at bind time. -/
structure CurrentGuard where
  id : TypeId
  val : Addr
  old_ptr : Option Addr
deriving Repr, DecidableEq

/-- `Current::set_current`: take the map out of the thread-local slot
(creating it if absent), record the previous address for the type via the
entry API, store the new address, put the map back, and return the guard. -/
def set_current (id : TypeId) (ptr : Addr) (s : TLS) : CurrentGuard × TLS :=
  let current := curOf s
  -- `Occupied(mut entry) => Some(entry.set(ptr))` returns the old value;
  -- `Vacant(entry) => { entry.set(ptr); None }` inserts and returns None.
  let old_ptr := findPtr id current
  let current := entrySet id ptr current
  (⟨id, ptr, old_ptr⟩, some current)

/-- `Drop for CurrentGuard::drop`.  Result `none` models the panic of
`key_current.replace(None).unwrap()` when the thread-local map is absent.
On `old_ptr = None` the source removes the entry and then `return`s early,
skipping `key_current.replace(Some(current))`: the taken-out map is
dropped, so the slot stays `None`.  On `old_ptr = Some(old)` the entry is
set back to `old` and the map is put back. -/
def dropGuard (g : CurrentGuard) (s : TLS) : Option TLS :=
  match s with
  | none => none
  | some current =>
    match g.old_ptr with
    | none =>
        let _ := removeId g.id current
        some none
    | some old => some (some (entrySet g.id old current))

/-- `Current::current` (lookup): take the map out of the slot; if the slot
was empty return `None`; if the type is unbound return `None` *without
putting the map back* (the early `return` skips
`key_current.replace(Some(current))`, so the map is dropped); otherwise put
the map back and return the stored address.  The pair is (returned
reference's address, thread-local state after the call). -/
def current (id : TypeId) (s : TLS) : Option Addr × TLS :=
  match s with
  | none => (none, none)
  | some cur =>
    match findPtr id cur with
    | none => (none, none)
    | some ptr => (some ptr, some cur)

/-- `Current::current_unwrap`: as `current`, but panics with
`"No current `{name}` is set"` (where `name` is the type's name from
`get_tydesc`) when the binding is absent.  The panic is modelled as
`Except.error` carrying the message. -/
def current_unwrap (id : TypeId) (name : String) (s : TLS) :
    Except String (Addr × TLS) :=
  match current id s with
  | (none, _) => Except.error ("No current `" ++ name ++ "` is set")
  | (some x, s') => Except.ok (x, s')

/-! Usage scenarios composed from the operations above, mirroring the
spec's testable properties. -/

/-- Nested same-type rebinding with LIFO release: bind `a`, bind `b`,
drop the inner guard, look the type up, drop the outer guard, look again.
Returns `none` if any guard drop panics, otherwise the two lookup
results. -/
def nestedRebind (t : TypeId) (a b : Addr) (s : TLS) :
    Option (Option Addr × Option Addr) :=
  let (g1, s1) := set_current t a s
  let (g2, s2) := set_current t b s1
  match dropGuard g2 s2 with
  | none => none
  | some s3 =>
    let (r1, s3') := current t s3
    match dropGuard g1 s3' with
    | none => none
    | some s4 => some (r1, (current t s4).fst)

/-- Out-of-LIFO-order release for one type: bind `a`, bind `b`, drop
`a`'s guard first, look the type up, then drop `b`'s guard and look again.
Returns `none` if any guard drop panics, otherwise the two lookup
results. -/
def outOfOrderRelease (t : TypeId) (a b : Addr) (s : TLS) :
    Option (Option Addr × Option Addr) :=
  let (ga, s1) := set_current t a s
  let (gb, s2) := set_current t b s1
  match dropGuard ga s2 with
  | none => none
  | some s3 =>
    let (r1, s3') := current t s3
    match dropGuard gb s3' with
    | none => none
    | some s4 => some (r1, (current t s4).fst)

/-- Well-nested use of two distinct types on a fresh thread: bind a value
of type `ia`, bind a value of type `ib`, drop `ib`'s guard, then drop
`ia`'s guard.  Returns `none` if `ib`'s drop already panics, otherwise the
state after `ib`'s drop together with the result of `ia`'s drop. -/
def wellNestedTwoTypes (ia ib : TypeId) (a b : Addr) :
    Option (TLS × Option TLS) :=
  let (gA, s1) := set_current ia a none
  let (gB, s2) := set_current ib b s1
  match dropGuard gB s2 with
  | none => none
  | some s3 => some (s3, dropGuard gA s3)

/-! A small trace semantics over the API, used to state claims about what
a thread can observe after an arbitrary sequence of calls.  An action is a
bind (which pushes its guard on the list of live guards), the release
(drop) of one live guard, or a lookup.  Guards exist only by having been
returned from a bind, and a released guard leaves the live list, so a
trace releases each guard at most once — exactly the discipline Rust's
ownership enforces. -/

/-- One API call in a trace. -/
inductive Act where
  | bindTo (id : TypeId) (ptr : Addr)
  | release (i : Nat)
  | look (id : TypeId)
deriving Repr, DecidableEq

/-- Does this action bind type `id`? -/
def bindsId (id : TypeId) : Act → Bool
  | .bindTo i _ => i == id
  | _ => false

/-- Run one action on (thread-local state, live guards).  `none` models a
panic during a guard drop; a `release` whose index names no live guard
does nothing. -/
def runAct (a : Act) (st : TLS × List CurrentGuard) :
    Option (TLS × List CurrentGuard) :=
  match a with
  | .bindTo id ptr =>
      let (g, s') := set_current id ptr st.1
      some (s', g :: st.2)
  | .release i =>
      match st.2[i]? with
      | none => some st
      | some g =>
        match dropGuard g st.1 with
        | none => none
        | some s' => some (s', st.2.eraseIdx i)
  | .look id => some ((current id st.1).2, st.2)

/-- Run a trace of actions. -/
def runTrace : List Act → TLS × List CurrentGuard →
    Option (TLS × List CurrentGuard)
  | [], st => some st
  | a :: rest, st =>
      match runAct a st with
      | none => none
      | some st' => runTrace rest st'

/-- Type `id` is unbound in the thread-local state: either the map is
absent, or it has no entry for `id`. -/
def unbound (id : TypeId) : TLS → Prop
  | none => True
  | some m => findPtr id m = none

/-! Invariant for traces: if a trace never binds type `id`, the type
stays unbound and no live guard carries its identity. -/

/-- `id` is unbound in the state and no live guard was created for it. -/
def TraceInv (id : TypeId) (st : TLS × List CurrentGuard) : Prop :=
  unbound id st.1 ∧ ∀ g ∈ st.2, g.id ≠ id

/-! Basic lemmas about the map operations. -/

@[simp] theorem curOf_none : curOf none = [] := rfl

@[simp] theorem curOf_some (m : Registry) : curOf (some m) = m := rfl


theorem findPtr_entrySet_self (id : TypeId) (ptr : Addr) (m : Registry) :
    findPtr id (entrySet id ptr m) = some ptr := by
  induction m with
  | nil => simp [entrySet, findPtr]
  | cons kv rest ih =>
      obtain ⟨k, v⟩ := kv
      by_cases h : k = id <;> simp [entrySet, findPtr, h, ih]

theorem findPtr_entrySet_ne (u id : TypeId) (ptr : Addr) (m : Registry)
    (h : u ≠ id) : findPtr u (entrySet id ptr m) = findPtr u m := by
  induction m with
  | nil => simp [entrySet, findPtr, h, Ne.symm h]
  | cons kv rest ih =>
      obtain ⟨k, v⟩ := kv
      by_cases hk : k = id
      · subst hk
        simp [entrySet, findPtr, Ne.symm h]
      · by_cases hu : k = u
        · subst hu
          simp [entrySet, findPtr, hk, h]
        · simp [entrySet, findPtr, hk, hu, ih]

theorem findPtr_curOf_of_unbound {id : TypeId} {s : TLS} (h : unbound id s) :
    findPtr id (curOf s) = none := by
  cases s with
  | none => rfl
  | some m => exact h

theorem mem_of_getElem? {α : Type} {l : List α} {i : Nat} {x : α}
    (h : l[i]? = some x) : x ∈ l := by
  induction l generalizing i with
  | nil => simp at h
  | cons y ys ih =>
      cases i with
      | zero =>
          simp only [List.getElem?_cons_zero, Option.some.injEq] at h
          simp [h]
      | succ n =>
          rw [List.getElem?_cons_succ] at h
          exact List.mem_cons_of_mem _ (ih h)

theorem mem_of_mem_eraseIdx {α : Type} {l : List α} {i : Nat} {x : α}
    (h : x ∈ l.eraseIdx i) : x ∈ l := by
  induction l generalizing i with
  | nil => simp [List.eraseIdx] at h
  | cons y ys ih =>
      cases i with
      | zero =>
          simp only [List.eraseIdx] at h
          exact List.mem_cons_of_mem _ h
      | succ n =>
          simp only [List.eraseIdx, List.mem_cons] at h
          rcases h with h | h
          · simp [h]
          · exact List.mem_cons_of_mem _ (ih h)

theorem runAct_preserves_inv (id : TypeId) (a : Act)
    (ha : bindsId id a = false) (st st' : TLS × List CurrentGuard)
    (hrun : runAct a st = some st') (hinv : TraceInv id st) :
    TraceInv id st' := by
  obtain ⟨s, gs⟩ := st
  obtain ⟨hub, hgs⟩ := hinv
  cases a with
  | bindTo i ptr =>
      have hne : i ≠ id := by simpa [bindsId] using ha
      simp only [runAct, set_current, Option.some.injEq] at hrun
      subst hrun
      refine ⟨?_, ?_⟩
      · show findPtr id (entrySet i ptr (curOf s)) = none
        rw [findPtr_entrySet_ne id i ptr _ (Ne.symm hne)]
        exact findPtr_curOf_of_unbound hub
      · intro g hg
        rcases List.mem_cons.mp hg with h | h
        · subst h; exact hne
        · exact hgs g h
  | release i =>
      cases hget : gs[i]? with
      | none =>
          simp only [runAct, hget, Option.some.injEq] at hrun
          subst hrun
          exact ⟨hub, hgs⟩
      | some g =>
          have hgid : g.id ≠ id := hgs g (mem_of_getElem? hget)
          cases s with
          | none => simp [runAct, hget, dropGuard] at hrun
          | some cur =>
              cases hold : g.old_ptr with
              | none =>
                  simp only [runAct, hget, dropGuard, hold,
                    Option.some.injEq] at hrun
                  subst hrun
                  exact ⟨trivial, fun g' hg' => hgs g' (mem_of_mem_eraseIdx hg')⟩
              | some old =>
                  simp only [runAct, hget, dropGuard, hold,
                    Option.some.injEq] at hrun
                  subst hrun
                  refine ⟨?_, fun g' hg' => hgs g' (mem_of_mem_eraseIdx hg')⟩
                  show findPtr id (entrySet g.id old cur) = none
                  rw [findPtr_entrySet_ne id g.id old cur (Ne.symm hgid)]
                  exact hub
  | look i =>
      simp only [runAct, Option.some.injEq] at hrun
      subst hrun
      refine ⟨?_, hgs⟩
      cases s with
      | none => exact trivial
      | some cur =>
          cases hf : findPtr i cur with
          | none => simp [current, hf, unbound]
          | some p => simpa [current, hf] using hub

theorem runTrace_preserves_inv (id : TypeId) (acts : List Act)
    (ha : acts.all (fun a => ! bindsId id a) = true)
    (st st' : TLS × List CurrentGuard) (hrun : runTrace acts st = some st')
    (hinv : TraceInv id st) : TraceInv id st' := by
  induction acts generalizing st with
  | nil =>
      simp only [runTrace, Option.some.injEq] at hrun
      subst hrun
      exact hinv
  | cons a rest ih =>
      rw [List.all_cons, Bool.and_eq_true] at ha
      obtain ⟨ha1, ha2⟩ := ha
      have ha1' : bindsId id a = false := by simpa using ha1
      cases hact : runAct a st with
      | none => simp [runTrace, hact] at hrun
      | some st1 =>
          simp only [runTrace, hact] at hrun
          exact ih ha2 st1 hrun
            (runAct_preserves_inv id a ha1' st st1 hact hinv)

/-! Claim theorems. -/

/-- C1: with no prior binding for type `t` on the thread, the nested
bind/release round trip restores the previous observable state: after
`bind(&a)` then `bind(&b)` for the same type, releasing the inner guard
makes lookup return `a` again, and afterwards releasing the outer guard
makes lookup return empty.  Neither release panics. -/
theorem nested_rebind_restores_then_clears (s : TLS) (t : TypeId)
    (a b : Addr) (h : findPtr t (curOf s) = none) :
    nestedRebind t a b s = some (some a, none) := by
  simp [nestedRebind, set_current, dropGuard, current, h,
    findPtr_entrySet_self]

/-- Witness for C1 at a concrete input: a fresh thread, type 0, addresses
1 and 2. -/
theorem nested_rebind_restores_then_clears_witness :
    findPtr 0 (curOf none) = none ∧
    nestedRebind 0 1 2 none = some (some 1, none) :=
  ⟨rfl, nested_rebind_restores_then_clears none 0 1 2 rfl⟩

/-- C2 (evaluation at the failing input): dropping a guard whose
`old_ptr` is `None` while a second type is bound does NOT leave the other
entry retrievable.  Before the drop type 1 is bound to 20; the drop of
type 0's no-predecessor guard leaves the thread-local slot `None` (the
taken-out map is never put back), and a subsequent lookup of type 1
returns empty. -/
theorem drop_no_predecessor_destroys_registry :
    findPtr 1 [(0, 10), (1, 20)] = some 20 ∧
    dropGuard ⟨0, 10, none⟩ (some [(0, 10), (1, 20)]) = some none ∧
    (current 1 none).fst = none :=
  ⟨rfl, rfl, rfl⟩

/-- C3 (evaluation at the failing input): `current` is not side-effect
free.  Looking up unbound type 0 while the map holds an entry for type 1
returns `None` but leaves the thread-local slot `None` — the map with
type 1's binding is dropped, so type 1 is no longer retrievable. -/
theorem lookup_unbound_destroys_registry :
    (current 1 (some [(1, 20)])).fst = some 20 ∧
    (current 0 (some [(1, 20)])).snd = none ∧
    (current 1 (current 0 (some [(1, 20)])).snd).fst = none :=
  ⟨rfl, rfl, rfl⟩

/-- C4: immediately after `set_current` stores the address `ptr` of the
bound value, `current` returns exactly that address, for every prior
thread state. -/
theorem lookup_after_bind_returns_bound_address (t : TypeId) (ptr : Addr)
    (s : TLS) :
    (current t (set_current t ptr s).2).fst = some ptr := by
  simp [current, set_current, findPtr_entrySet_self]

/-- C5: on a thread whose trace of API calls never binds type `id`,
lookup of `id` returns empty at the end of the trace (whatever binds,
releases and lookups of other types happened). -/
theorem lookup_none_without_bind_in_trace (acts : List Act) (id : TypeId)
    (hno : acts.all (fun a => ! bindsId id a) = true)
    (s : TLS) (gs : List CurrentGuard)
    (hrun : runTrace acts (none, []) = some (s, gs)) :
    (current id s).fst = none := by
  have hinv : TraceInv id (s, gs) :=
    runTrace_preserves_inv id acts hno (none, []) (s, gs) hrun
      ⟨trivial, by simp⟩
  obtain ⟨hub, -⟩ := hinv
  cases s with
  | none => rfl
  | some m =>
      have hm : findPtr id m = none := hub
      simp [current, hm]

/-- Witness for C5 at a concrete trace that binds type 1 and looks up
type 0 but never binds type 0. -/
theorem lookup_none_without_bind_in_trace_witness :
    ([Act.bindTo 1 5, Act.look 0].all (fun a => ! bindsId 0 a) = true) ∧
    runTrace [Act.bindTo 1 5, Act.look 0] (none, []) =
      some (none, [⟨1, 5, none⟩]) ∧
    (current 0 none).fst = none :=
  ⟨by decide, by decide,
    lookup_none_without_bind_in_trace [Act.bindTo 1 5, Act.look 0] 0
      (by decide) none [⟨1, 5, none⟩] (by decide)⟩

/-- C6: `set_current` inserts or replaces the entry for the bound type
(leaving every other type's entry unchanged), and the returned guard's
`old_ptr` is exactly the previously stored address: `some` of it when an
entry existed, `none` otherwise. -/
theorem bind_replaces_entry_and_captures_old (t : TypeId) (ptr : Addr)
    (s : TLS) :
    (set_current t ptr s).1.old_ptr = findPtr t (curOf s) ∧
    findPtr t (curOf (set_current t ptr s).2) = some ptr ∧
    ∀ u, u ≠ t → findPtr u (curOf (set_current t ptr s).2) =
      findPtr u (curOf s) := by
  refine ⟨rfl, ?_, ?_⟩
  · simp [set_current, findPtr_entrySet_self]
  · intro u hu
    simp [set_current, findPtr_entrySet_ne u t ptr _ hu]

/-- Witness for C6 at a concrete input: rebinding type 0 to address 5
while type 1 is bound to 7. -/
theorem bind_replaces_entry_and_captures_old_witness :
    (set_current 0 5 (some [(1, 7)])).1.old_ptr =
      findPtr 0 (curOf (some [(1, 7)])) ∧
    findPtr 0 (curOf (set_current 0 5 (some [(1, 7)])).2) = some 5 ∧
    ((1 : TypeId) ≠ 0 ∧
      findPtr 1 (curOf (set_current 0 5 (some [(1, 7)])).2) =
        findPtr 1 (curOf (some [(1, 7)]))) :=
  ⟨(bind_replaces_entry_and_captures_old 0 5 (some [(1, 7)])).1,
    (bind_replaces_entry_and_captures_old 0 5 (some [(1, 7)])).2.1,
    by decide,
    (bind_replaces_entry_and_captures_old 0 5 (some [(1, 7)])).2.2 1
      (by decide)⟩

/-- C7: dropping a guard whose `old_ptr` is `some old` sets the entry for
the guard's type to `old` unconditionally — whatever map is currently
stored (the map `m` is arbitrary and unrelated to the guard's own
installed value, so no check against it is made; the entry is overwritten
if present and inserted if absent), and every other type's entry is left
unchanged. -/
theorem drop_with_old_restores_unconditionally (g : CurrentGuard)
    (old : Addr) (m : Registry) (h : g.old_ptr = some old) :
    dropGuard g (some m) = some (some (entrySet g.id old m)) ∧
    findPtr g.id (entrySet g.id old m) = some old ∧
    ∀ u, u ≠ g.id → findPtr u (entrySet g.id old m) = findPtr u m := by
  refine ⟨by simp [dropGuard, h], findPtr_entrySet_self g.id old m, ?_⟩
  intro u hu
  exact findPtr_entrySet_ne u g.id old m hu

/-- Witness for C7 at a concrete input: the guard for type 0 installed 99
and captured 3, but the map currently holds 42 for type 0 — the drop
still overwrites with 3 and leaves type 1's entry alone. -/
theorem drop_with_old_restores_unconditionally_witness :
    (⟨0, 99, some 3⟩ : CurrentGuard).old_ptr = some 3 ∧
    dropGuard ⟨0, 99, some 3⟩ (some [(0, 42), (1, 7)]) =
      some (some (entrySet 0 3 [(0, 42), (1, 7)])) ∧
    findPtr 0 (entrySet 0 3 [(0, 42), (1, 7)]) = some 3 ∧
    ((1 : TypeId) ≠ 0 ∧
      findPtr 1 (entrySet 0 3 [(0, 42), (1, 7)]) =
        findPtr 1 [(0, 42), (1, 7)]) :=
  ⟨rfl,
    (drop_with_old_restores_unconditionally ⟨0, 99, some 3⟩ 3
      [(0, 42), (1, 7)] rfl).1,
    (drop_with_old_restores_unconditionally ⟨0, 99, some 3⟩ 3
      [(0, 42), (1, 7)] rfl).2.1,
    by decide,
    (drop_with_old_restores_unconditionally ⟨0, 99, some 3⟩ 3
      [(0, 42), (1, 7)] rfl).2.2 1 (by decide)⟩

/-- C8: with a prior binding `p` for type `t` in place, rebinding `a`,
rebinding `b`, and then releasing `a`'s guard before `b`'s does not
panic: the out-of-order release leaves the registry holding `a`'s
previous value `p` for `t` — not `b`, the value an inner guard is still
active for — and the subsequent release of `b`'s guard also succeeds,
leaving `a` bound. -/
theorem out_of_order_release_no_crash_wrong_state (m0 : Registry)
    (t : TypeId) (p a b : Addr) (h : findPtr t m0 = some p)
    (hpb : p ≠ b) :
    outOfOrderRelease t a b (some m0) = some (some p, some a) ∧
    (some p : Option Addr) ≠ some b := by
  constructor
  · simp [outOfOrderRelease, set_current, dropGuard, current, h,
      findPtr_entrySet_self]
  · simpa using hpb

/-- Witness for C8 at a concrete input: prior binding 9 for type 0,
rebind to 1 then to 2, release the first rebind's guard first. -/
theorem out_of_order_release_no_crash_wrong_state_witness :
    findPtr 0 [(0, 9)] = some 9 ∧ (9 : Addr) ≠ 2 ∧
    outOfOrderRelease 0 1 2 (some [(0, 9)]) = some (some 9, some 1) ∧
    (some 9 : Option Addr) ≠ some 2 :=
  ⟨rfl, by decide,
    (out_of_order_release_no_crash_wrong_state [(0, 9)] 0 9 1 2 rfl
      (by decide)).1,
    (out_of_order_release_no_crash_wrong_state [(0, 9)] 0 9 1 2 rfl
      (by decide)).2⟩

/-- C9: when type `id` is unbound, `current_unwrap` does not return a
value: it fails with the message `"No current `" ++ name ++ "` is set"`,
which contains the type's name; when a binding is present it returns
exactly what `current` returns. -/
theorem unwrap_fails_naming_type_or_returns_lookup (id : TypeId)
    (name : String) (s : TLS) :
    ((current id s).fst = none →
      current_unwrap id name s =
        Except.error ("No current `" ++ name ++ "` is set")) ∧
    (∀ x, (current id s).fst = some x →
      current_unwrap id name s = Except.ok (x, (current id s).snd)) := by
  constructor
  · intro h
    rcases hcur : current id s with ⟨r, s'⟩
    rw [hcur] at h
    simp only at h
    subst h
    simp [current_unwrap, hcur]
  · intro x h
    rcases hcur : current id s with ⟨r, s'⟩
    rw [hcur] at h
    simp only at h
    subst h
    simp [current_unwrap, hcur]

/-- Witness for C9 at concrete inputs: type 0 named "Config", once on a
fresh thread (unbound: failure naming the type) and once with 0 bound to
address 5 (returns the lookup result). -/
theorem unwrap_fails_naming_type_or_returns_lookup_witness :
    ((current 0 none).fst = none ∧
      current_unwrap 0 "Config" none =
        Except.error ("No current `" ++ "Config" ++ "` is set")) ∧
    ((current 0 (some [(0, 5)])).fst = some 5 ∧
      current_unwrap 0 "Config" (some [(0, 5)]) =
        Except.ok (5, (current 0 (some [(0, 5)])).snd)) :=
  ⟨⟨rfl, (unwrap_fails_naming_type_or_returns_lookup 0 "Config" none).1
      rfl⟩,
    ⟨rfl, (unwrap_fails_naming_type_or_returns_lookup 0 "Config"
      (some [(0, 5)])).2 5 rfl⟩⟩

/-- C10: dropping any guard while the thread-local map is absent panics
(the `unwrap` of the taken-out slot), and this is reachable by
well-nested LIFO usage: on a fresh thread bind a value of type `ia`, bind
a value of a different type `ib`, drop `ib`'s guard (which succeeds but
leaves the slot `None`), then drop `ia`'s guard — which panics. -/
theorem drop_panics_when_registry_absent (g : CurrentGuard)
    (ia ib : TypeId) (a b : Addr) (h : ia ≠ ib) :
    dropGuard g none = none ∧
    wellNestedTwoTypes ia ib a b = some (none, none) := by
  constructor
  · rfl
  · simp [wellNestedTwoTypes, set_current, dropGuard, curOf, entrySet,
      findPtr, h]

/-- Witness for C10 at a concrete input: types 0 and 1, addresses 1
and 2, and an arbitrary concrete guard. -/
theorem drop_panics_when_registry_absent_witness :
    (0 : TypeId) ≠ 1 ∧
    dropGuard ⟨0, 0, none⟩ none = none ∧
    wellNestedTwoTypes 0 1 1 2 = some (none, none) :=
  ⟨by decide,
    (drop_panics_when_registry_absent ⟨0, 0, none⟩ 0 1 1 2 (by decide)).1,
    (drop_panics_when_registry_absent ⟨0, 0, none⟩ 0 1 1 2 (by decide)).2⟩
